import Mathlib

/-!
Verification of the subdomain enumeration tool (src/subdomain_enum.py).

The Python program is shallowly embedded as pure Lean functions over an
explicit state record `EnumState`, which collects every piece of mutable
state the program touches: the shared counters and result list of the
`SubdomainEnumerator` instance, the content of the output file, the console
output, and a ghost log of the HTTP requests issued (used to state claims
about which endpoints were contacted and with which parameters).

Network I/O is modelled by an oracle `net : String → NetResult` mapping a
URL to either a status code or a raised `requests.exceptions.RequestException`.

The concurrent worker pool of `enumerate` / `worker` is modelled as a
small-step transition system `Step` over a global state `GState`: each
atomic action of a worker (the GIL-atomic `pop(0)`, the lock-protected
counter update, the probe with its lock-protected result recording) is one
transition, and an arbitrary interleaving is a `Relation.ReflTransGen`
chain of transitions.
-/

/-- Result of one `requests.get` call: either a response with a status
code, or a raised `requests.exceptions.RequestException`. -/
inductive NetResult where
  | status (code : Nat)
  | requestError
deriving DecidableEq, Repr

/-- One issued HTTP request, with the keyword arguments the Python code
passes to `requests.get` (ghost record of network activity). -/
structure HttpRequest where
  url : String
  timeout : Nat
  allowRedirects : Bool
  verify : Bool
deriving DecidableEq, Repr

/-- Constructor arguments of `SubdomainEnumerator.__init__`
(src/subdomain_enum.py lines 20-25): the immutable configuration. -/
structure Config where
  domain : String
  subdomainFile : String
  outputFile : String
  maxThreads : Nat
  timeout : Nat
deriving DecidableEq, Repr

/-- All mutable state of the program: the instance fields of
`SubdomainEnumerator` (`total_subdomains`, `checked_count`,
`discovered_subdomains`), the lines of the output file on disk, the lines
printed to the console, and the ghost log of issued HTTP requests. -/
structure EnumState where
  totalSubdomains : Nat
  checkedCount : Nat
  discoveredSubdomains : List String
  outputFile : List String
  console : List String
  requests : List HttpRequest
deriving DecidableEq, Repr

/-- State of a fresh `SubdomainEnumerator` instance: counters zero, empty
result list; `prevOutput` is whatever the output file held on disk before
the run. -/
def initEnumState (prevOutput : List String) : EnumState :=
  { totalSubdomains := 0
    checkedCount := 0
    discoveredSubdomains := []
    outputFile := prevOutput
    console := []
    requests := [] }

/-- Outcome of opening the candidate file: the file content, a
`FileNotFoundError`, or some other I/O exception with message `msg`. -/
inductive FileOutcome where
  | content (lines : List String)
  | notFound
  | ioError (msg : String)
deriving DecidableEq, Repr

namespace SubdomainEnumerator

/-- The string `f"http://{subdomain}.{self.domain}"` (line 57). -/
def http_url (domain sub : String) : String :=
  "http://" ++ sub ++ "." ++ domain

/-- The string `f"https://{subdomain}.{self.domain}"` (line 58). -/
def https_url (domain sub : String) : String :=
  "https://" ++ sub ++ "." ++ domain

/-- The string `f"{subdomain}.{self.domain}"` — the fully qualified name recorded in
a discovery (lines 66, 77). -/
def fqdn (domain sub : String) : String :=
  sub ++ "." ++ domain

/-- The whitespace characters removed by Python `str.strip()` (space,
tab, newline, vertical tab, form feed, carriage return). -/
def is_space (ch : Char) : Bool :=
  ch = ' ' ∨ ch = '\t' ∨ ch = '\n' ∨ ch = '\x0b' ∨ ch = '\x0c' ∨ ch = '\r'

/-- Python `line.strip()`: remove leading and trailing whitespace. -/
def py_strip (s : String) : String :=
  ⟨((s.data.dropWhile is_space).reverse.dropWhile is_space).reverse⟩

/-- Method `load_subdomains` (lines 31-45): read the candidate file, keep the
stripped non-blank lines, set `self.total_subdomains`, print the INFO
line; a `FileNotFoundError` or any other exception is caught, an ERROR
line is printed and `[]` is returned. -/
def load_subdomains (fs : FileOutcome) (cfg : Config) (s : EnumState) :
    List String × EnumState :=
  match fs with
  | FileOutcome.content lines =>
      let subdomains := lines.filterMap fun line =>
        let t := py_strip line
        if t = "" then none else some t
      ⟨subdomains,
       { s with
           totalSubdomains := subdomains.length
           console := s.console ++
             ["[INFO] Loaded " ++ toString subdomains.length ++
              " subdomains from " ++ cfg.subdomainFile] }⟩
  | FileOutcome.notFound =>
      ⟨[], { s with console := s.console ++
               ["[ERROR] File " ++ cfg.subdomainFile ++ " not found!"] }⟩
  | FileOutcome.ioError msg =>
      ⟨[], { s with console := s.console ++
               ["[ERROR] Error reading file: " ++ msg] }⟩

/-- Method `save_discovered_subdomain` (lines 84-94): under `self.lock`, build
`discovery_info`, append it to `self.discovered_subdomains`, append the
same line to the output file, and print the FOUND line.  The whole body is
one critical section, hence one atomic step of the embedding. -/
def save_discovered_subdomain (s : EnumState) (subdomain url : String)
    (statusCode : Nat) : EnumState :=
  let discoveryInfo :=
    subdomain ++ " - " ++ url ++ " (Status: " ++ toString statusCode ++ ")"
  { s with
      discoveredSubdomains := s.discoveredSubdomains ++ [discoveryInfo]
      outputFile := s.outputFile ++ [discoveryInfo]
      console := s.console ++ ["[FOUND] " ++ discoveryInfo] }

/-- One `requests.get(url, timeout=..., allow_redirects=..., verify=...)`
call: consults the network oracle and records the issued request in the
ghost log. -/
def requests_get (net : String → NetResult) (s : EnumState) (url : String)
    (timeout : Nat) (allowRedirects verify : Bool) : NetResult × EnumState :=
  ⟨net url,
   { s with requests := s.requests ++ [⟨url, timeout, allowRedirects, verify⟩] }⟩

/-- The first part of `check_subdomain` (lines 50-55), executed under
`self.lock`: increment `self.checked_count` and possibly print a PROGRESS
line. -/
def record_attempt (s : EnumState) : EnumState :=
  let s1 := { s with checkedCount := s.checkedCount + 1 }
  let currentCount := s1.checkedCount
  if currentCount % 10 = 0 ∨ currentCount = 1 then
    { s1 with console := s1.console ++
        ["[PROGRESS] Checking " ++ toString currentCount ++ "/" ++
         toString s1.totalSubdomains ++ " subdomains..."] }
  else s1

/-- The second `try` block of `check_subdomain` (lines 71-80): one HTTPS
GET with the same timeout, `allow_redirects=True` and `verify=False`; on a
status below 400 the discovery is saved with the HTTPS URL and `True` is
returned, otherwise (status at least 400, or a caught
`RequestException`) `False`. -/
def try_https (net : String → NetResult) (cfg : Config) (sub : String)
    (s : EnumState) : Bool × EnumState :=
  let hurl := https_url cfg.domain sub
  match requests_get net s hurl cfg.timeout true false with
  | ⟨NetResult.status code, s1⟩ =>
      if code < 400 then
        ⟨true, save_discovered_subdomain s1 (fqdn cfg.domain sub) hurl code⟩
      else ⟨false, s1⟩
  | ⟨NetResult.requestError, s1⟩ => ⟨false, s1⟩

/-- The network part of `check_subdomain` (lines 57-82): try HTTP first
(`verify` left at its default `True`); on a status below 400 save the
discovery with the HTTP URL and return `True`; on a status of at least 400
or a caught `RequestException`, fall through to the HTTPS attempt. -/
def probe_part (net : String → NetResult) (cfg : Config) (sub : String)
    (s : EnumState) : Bool × EnumState :=
  let url := http_url cfg.domain sub
  match requests_get net s url cfg.timeout true true with
  | ⟨NetResult.status code, s1⟩ =>
      if code < 400 then
        ⟨true, save_discovered_subdomain s1 (fqdn cfg.domain sub) url code⟩
      else try_https net cfg sub s1
  | ⟨NetResult.requestError, s1⟩ => try_https net cfg sub s1

/-- Method `check_subdomain` (lines 47-82): the lock-protected counter update
followed by the HTTP-then-HTTPS probe. -/
def check_subdomain (net : String → NetResult) (cfg : Config) (sub : String)
    (s : EnumState) : Bool × EnumState :=
  probe_part net cfg sub (record_attempt s)

end SubdomainEnumerator

/-- Phase of one worker thread inside the `worker` loop (lines 96-106):
about to `pop(0)`; holding a popped candidate, about to run the counter
section of `check_subdomain`; about to run the network part; or
terminated after observing an empty queue. -/
inductive WPhase where
  | idle
  | hasItem (sub : String)
  | probing (sub : String)
  | done
deriving DecidableEq, Repr

/-- Global state of the running pool: the shared `subdomain_queue`, the
shared `EnumState`, and the phase of every worker thread. -/
structure GState where
  queue : List String
  st : EnumState
  workers : List WPhase
deriving Repr

/-- One atomic action of one worker thread `i` (the `worker` loop,
lines 96-106).  `subdomain_queue.pop(0)` is atomic under the GIL;
the counter update and the result recording are atomic under
`self.lock`; the network wait in between is interleaved freely. -/
inductive Step (net : String → NetResult) (cfg : Config) : GState → GState → Prop
  | pop {g : GState} {i : Nat} {sub : String} {rest : List String}
      (hw : g.workers.get? i = some WPhase.idle)
      (hq : g.queue = sub :: rest) :
      Step net cfg g ⟨rest, g.st, g.workers.set i (WPhase.hasItem sub)⟩
  | popEmpty {g : GState} {i : Nat}
      (hw : g.workers.get? i = some WPhase.idle)
      (hq : g.queue = []) :
      Step net cfg g ⟨[], g.st, g.workers.set i WPhase.done⟩
  | count {g : GState} {i : Nat} {sub : String}
      (hw : g.workers.get? i = some (WPhase.hasItem sub)) :
      Step net cfg g
        ⟨g.queue, SubdomainEnumerator.record_attempt g.st,
         g.workers.set i (WPhase.probing sub)⟩
  | probe {g : GState} {i : Nat} {sub : String}
      (hw : g.workers.get? i = some (WPhase.probing sub)) :
      Step net cfg g
        ⟨g.queue, (SubdomainEnumerator.probe_part net cfg sub g.st).2,
         g.workers.set i WPhase.idle⟩

/-- Any interleaving of worker actions. -/
def Steps (net : String → NetResult) (cfg : Config) : GState → GState → Prop :=
  Relation.ReflTransGen (Step net cfg)

/-- All worker threads have observed an empty queue and exited (the state
in which every `t.join()` of line 137 has returned). -/
def AllDone (g : GState) : Prop :=
  ∀ w ∈ g.workers, w = WPhase.done

namespace SubdomainEnumerator

/-- Result of `enumerate` (lines 108-152) up to the point where the worker
threads take over: the state after printing the banner, truncating the
output file and loading the candidates; the number of threads started
(line 129: `min(self.max_threads, len(subdomains))`, or `0` when the early
`return` of line 120 fires); and, when workers do start, the initial
global state of the pool. -/
structure EnumSetup where
  st : EnumState
  workersStarted : Nat
  ran : Option GState

/-- Method `enumerate` (lines 108-133) on a fresh instance: print two INFO lines,
truncate the output file (`open(self.output_file, 'w').close()`, line 115,
before `load_subdomains`), load the candidates, return early if none, else
start `min(self.max_threads, len(subdomains))` worker threads on a copy of
the list. -/
def enumerate (cfg : Config) (fs : FileOutcome) (prevOutput : List String) :
    EnumSetup :=
  let s := initEnumState prevOutput
  let s := { s with console := s.console ++
      ["[INFO] Starting subdomain enumeration for " ++ cfg.domain,
       "[INFO] Using " ++ toString cfg.maxThreads ++ " threads with " ++
       toString cfg.timeout ++ "s timeout"] }
  let s := { s with outputFile := [] }
  let loaded := load_subdomains fs cfg s
  let subdomains := loaded.1
  let s := loaded.2
  if subdomains.isEmpty then
    { st := s, workersStarted := 0, ran := none }
  else
    let n := min cfg.maxThreads subdomains.length
    { st := s, workersStarted := n,
      ran := some ⟨subdomains, s, List.replicate n WPhase.idle⟩ }

end SubdomainEnumerator

open SubdomainEnumerator

/-! Helper lemmas about the effect of each embedded function on the
individual state fields. -/

@[simp]
theorem record_attempt_checkedCount (s : EnumState) :
    (record_attempt s).checkedCount = s.checkedCount + 1 := by
  unfold record_attempt; dsimp only; split <;> rfl

@[simp]
theorem record_attempt_totalSubdomains (s : EnumState) :
    (record_attempt s).totalSubdomains = s.totalSubdomains := by
  unfold record_attempt; dsimp only; split <;> rfl

@[simp]
theorem record_attempt_discoveredSubdomains (s : EnumState) :
    (record_attempt s).discoveredSubdomains = s.discoveredSubdomains := by
  unfold record_attempt; dsimp only; split <;> rfl

@[simp]
theorem record_attempt_outputFile (s : EnumState) :
    (record_attempt s).outputFile = s.outputFile := by
  unfold record_attempt; dsimp only; split <;> rfl

@[simp]
theorem record_attempt_requests (s : EnumState) :
    (record_attempt s).requests = s.requests := by
  unfold record_attempt; dsimp only; split <;> rfl

/-- The line recorded for a discovery, `discovery_info` of line 87. -/
def discoveryLine (subdomain url : String) (statusCode : Nat) : String :=
  subdomain ++ " - " ++ url ++ " (Status: " ++ toString statusCode ++ ")"

theorem save_discovered_subdomain_eq (s : EnumState) (subdomain url : String)
    (statusCode : Nat) :
    save_discovered_subdomain s subdomain url statusCode =
      { s with
          discoveredSubdomains :=
            s.discoveredSubdomains ++ [discoveryLine subdomain url statusCode]
          outputFile := s.outputFile ++ [discoveryLine subdomain url statusCode]
          console := s.console ++
            ["[FOUND] " ++ discoveryLine subdomain url statusCode] } := rfl

/-- The candidates `load_subdomains` returns depend only on the file
content: the stripped non-blank lines. -/
def loadedCandidates (fs : FileOutcome) : List String :=
  match fs with
  | FileOutcome.content lines =>
      lines.filterMap fun line =>
        let t := SubdomainEnumerator.py_strip line
        if t = "" then none else some t
  | FileOutcome.notFound => []
  | FileOutcome.ioError _ => []

theorem load_subdomains_fst (fs : FileOutcome) (cfg : Config) (s : EnumState) :
    (load_subdomains fs cfg s).1 = loadedCandidates fs := by
  cases fs <;> rfl

theorem load_subdomains_outputFile (fs : FileOutcome) (cfg : Config)
    (s : EnumState) : (load_subdomains fs cfg s).2.outputFile = s.outputFile := by
  cases fs <;> rfl

/-- Claim C8: for every candidate list of length `N` and requested worker
count `W`, `enumerate` starts exactly `min W N` worker threads — never
more workers than there are candidates (line 129; the early return of
line 120 starts `0 = min W 0` workers). -/
theorem enumerate_starts_min_workers (cfg : Config) (fs : FileOutcome)
    (prevOutput : List String) :
    (enumerate cfg fs prevOutput).workersStarted =
      min cfg.maxThreads (loadedCandidates fs).length := by
  unfold enumerate
  dsimp only
  rw [load_subdomains_fst]
  split
  · rename_i h
    rw [List.isEmpty_iff] at h
    simp [h]
  · rfl

/-- Claim C10: `enumerate` truncates the output file (line 115) before
loading the candidate list (line 118), so the state in which it either
returns early or hands over to the workers always has an empty output
file: even a run whose candidate file is missing, unreadable or empty —
which starts no workers and records nothing — erases all results of the
previous run. -/
theorem enumerate_truncates_before_load (cfg : Config) (fs : FileOutcome)
    (prevOutput : List String) (msg : String) :
    (enumerate cfg fs prevOutput).st.outputFile = [] ∧
    (enumerate cfg FileOutcome.notFound prevOutput).ran = none ∧
    (enumerate cfg (FileOutcome.ioError msg) prevOutput).ran = none ∧
    (enumerate cfg (FileOutcome.content []) prevOutput).ran = none := by
  refine ⟨?_, rfl, rfl, rfl⟩
  unfold enumerate
  dsimp only
  split
  · exact load_subdomains_outputFile fs cfg _
  · exact load_subdomains_outputFile fs cfg _

/-- Claim C6: a missing candidate file and any other read failure are
distinct, reported failures (`FileNotFoundError` and the generic read
error of lines 40-45), and either one is fatal to the run: the error line
is printed, no worker threads are started, nothing is probed and nothing
is recorded. -/
theorem load_failure_is_fatal (cfg : Config) (prevOutput : List String)
    (msg : String) :
    ((enumerate cfg FileOutcome.notFound prevOutput).workersStarted = 0 ∧
     (enumerate cfg FileOutcome.notFound prevOutput).ran = none ∧
     ("[ERROR] File " ++ cfg.subdomainFile ++ " not found!") ∈
       (enumerate cfg FileOutcome.notFound prevOutput).st.console ∧
     (enumerate cfg FileOutcome.notFound prevOutput).st.checkedCount = 0 ∧
     (enumerate cfg FileOutcome.notFound prevOutput).st.requests = [] ∧
     (enumerate cfg FileOutcome.notFound prevOutput).st.discoveredSubdomains = []) ∧
    ((enumerate cfg (FileOutcome.ioError msg) prevOutput).workersStarted = 0 ∧
     (enumerate cfg (FileOutcome.ioError msg) prevOutput).ran = none ∧
     ("[ERROR] Error reading file: " ++ msg) ∈
       (enumerate cfg (FileOutcome.ioError msg) prevOutput).st.console ∧
     (enumerate cfg (FileOutcome.ioError msg) prevOutput).st.checkedCount = 0 ∧
     (enumerate cfg (FileOutcome.ioError msg) prevOutput).st.requests = [] ∧
     (enumerate cfg (FileOutcome.ioError msg) prevOutput).st.discoveredSubdomains
       = []) := by
  constructor <;>
    refine ⟨rfl, rfl, ?_, rfl, rfl, rfl⟩ <;>
    simp [enumerate, load_subdomains, initEnumState]

/-! Effect of the probing code on the state, claim by claim. -/

/-- Claim C2: a candidate whose HTTP GET completes with a status code
below 400 is recorded as live via the HTTP URL with that status code, and
`check_subdomain` returns `True` immediately: the only request issued is
the single HTTP GET — the HTTPS endpoint is never contacted. -/
theorem check_subdomain_http_short_circuit (net : String → NetResult)
    (cfg : Config) (sub : String) (s : EnumState) (c : Nat)
    (hhttp : net (http_url cfg.domain sub) = NetResult.status c)
    (hc : c < 400) :
    (check_subdomain net cfg sub s).1 = true ∧
    (check_subdomain net cfg sub s).2.discoveredSubdomains =
      s.discoveredSubdomains ++
        [discoveryLine (fqdn cfg.domain sub) (http_url cfg.domain sub) c] ∧
    (check_subdomain net cfg sub s).2.requests =
      s.requests ++ [⟨http_url cfg.domain sub, cfg.timeout, true, true⟩] := by
  unfold check_subdomain probe_part requests_get
  simp only [hhttp]
  rw [if_pos hc]
  simp [save_discovered_subdomain_eq]

/-- A closed instance for `check_subdomain_http_short_circuit`. -/
def net2 : String → NetResult := fun url =>
  if url = "http://www.example.com" then NetResult.status 200
  else NetResult.requestError

/-- The configuration of the default constructor call with domain
`example.com`. -/
def cfg0 : Config :=
  ⟨"example.com", "subdomains.txt", "discovered_subdomains.txt", 50, 5⟩

/-- A fresh instance state over an empty previous output file. -/
def s0 : EnumState := initEnumState []

/-- Witness for claim C2 at a concrete network oracle. -/
theorem check_subdomain_http_short_circuit_witness :
    (check_subdomain net2 cfg0 "www" s0).1 = true ∧
    (check_subdomain net2 cfg0 "www" s0).2.discoveredSubdomains =
      [discoveryLine "www.example.com" "http://www.example.com" 200] ∧
    (check_subdomain net2 cfg0 "www" s0).2.requests =
      [⟨"http://www.example.com", 5, true, true⟩] :=
  check_subdomain_http_short_circuit net2 cfg0 "www" s0 200 (by decide)
    (by decide)

/-- Claim C3: when the HTTP attempt raises a `RequestException` or returns
a status of at least 400, `check_subdomain` issues exactly one HTTPS
attempt, with the same timeout, `allow_redirects=True` and `verify=False`;
and when that HTTPS attempt returns a status below 400, the recorded
verdict uses the HTTPS URL and the HTTPS status code, never those of the
HTTP attempt. -/
theorem check_subdomain_https_fallback (net : String → NetResult)
    (cfg : Config) (sub : String) (s : EnumState)
    (hhttp : ∀ c, net (http_url cfg.domain sub) = NetResult.status c → 400 ≤ c) :
    (check_subdomain net cfg sub s).2.requests =
      s.requests ++
        [⟨http_url cfg.domain sub, cfg.timeout, true, true⟩,
         ⟨https_url cfg.domain sub, cfg.timeout, true, false⟩] ∧
    (∀ c, net (https_url cfg.domain sub) = NetResult.status c → c < 400 →
      (check_subdomain net cfg sub s).1 = true ∧
      (check_subdomain net cfg sub s).2.discoveredSubdomains =
        s.discoveredSubdomains ++
          [discoveryLine (fqdn cfg.domain sub) (https_url cfg.domain sub) c]) := by
  unfold check_subdomain probe_part try_https requests_get
  cases h1 : net (http_url cfg.domain sub) with
  | status c =>
      have h400 : ¬ c < 400 := by
        have := hhttp c h1
        omega
      simp only [h1]
      rw [if_neg h400]
      cases h2 : net (https_url cfg.domain sub) with
      | status c2 =>
          simp only [h2]
          by_cases hc2 : c2 < 400
          · rw [if_pos hc2]
            refine ⟨by simp [save_discovered_subdomain_eq], ?_⟩
            intro c3 hc3 _
            cases hc3
            simp [save_discovered_subdomain_eq, discoveryLine]
          · rw [if_neg hc2]
            refine ⟨by simp, ?_⟩
            intro c3 hc3 hlt
            cases hc3
            exact absurd hlt hc2
      | requestError =>
          simp only [h2]
          refine ⟨by simp, ?_⟩
          intro c3 hc3 _
          cases hc3
  | requestError =>
      simp only [h1]
      cases h2 : net (https_url cfg.domain sub) with
      | status c2 =>
          simp only [h2]
          by_cases hc2 : c2 < 400
          · rw [if_pos hc2]
            refine ⟨by simp [save_discovered_subdomain_eq], ?_⟩
            intro c3 hc3 _
            cases hc3
            simp [save_discovered_subdomain_eq, discoveryLine]
          · rw [if_neg hc2]
            refine ⟨by simp, ?_⟩
            intro c3 hc3 hlt
            cases hc3
            exact absurd hlt hc2
      | requestError =>
          simp only [h2]
          refine ⟨by simp, ?_⟩
          intro c3 hc3 _
          cases hc3

/-- A network oracle where HTTP answers 500 and HTTPS answers 200 for
`www.example.com`. -/
def net3 : String → NetResult := fun url =>
  if url = "http://www.example.com" then NetResult.status 500
  else if url = "https://www.example.com" then NetResult.status 200
  else NetResult.requestError

/-- Witness for claim C3: HTTP 500, HTTPS 200 — the verdict records the
HTTPS URL with status 200, and both requests were issued with the
parameters the claim states. -/
theorem check_subdomain_https_fallback_witness :
    (check_subdomain net3 cfg0 "www" s0).2.requests =
      [⟨"http://www.example.com", 5, true, true⟩,
       ⟨"https://www.example.com", 5, true, false⟩] ∧
    (check_subdomain net3 cfg0 "www" s0).1 = true ∧
    (check_subdomain net3 cfg0 "www" s0).2.discoveredSubdomains =
      [discoveryLine "www.example.com" "https://www.example.com" 200] := by
  have h := check_subdomain_https_fallback net3 cfg0 "www" s0
    (by
      intro c hc
      have h500 : NetResult.status 500 = NetResult.status c := hc
      cases h500
      omega)
  have h2 := h.2 200 (by decide) (by decide)
  exact ⟨h.1, h2.1, h2.2⟩

/-- Shared effect lemma: the network part of `check_subdomain` never
touches the counters, and it either returns `False` leaving the result
list and the output file unchanged, or returns `True` appending one and
the same line to both. -/
theorem probe_part_effect (net : String → NetResult) (cfg : Config)
    (sub : String) (s : EnumState) :
    (probe_part net cfg sub s).2.checkedCount = s.checkedCount ∧
    (probe_part net cfg sub s).2.totalSubdomains = s.totalSubdomains ∧
    (((probe_part net cfg sub s).1 = false ∧
      (probe_part net cfg sub s).2.discoveredSubdomains =
        s.discoveredSubdomains ∧
      (probe_part net cfg sub s).2.outputFile = s.outputFile) ∨
     ((probe_part net cfg sub s).1 = true ∧
      ∃ line,
        (probe_part net cfg sub s).2.discoveredSubdomains =
          s.discoveredSubdomains ++ [line] ∧
        (probe_part net cfg sub s).2.outputFile = s.outputFile ++ [line])) := by
  unfold probe_part try_https requests_get
  cases h1 : net (http_url cfg.domain sub) with
  | status c =>
      simp only [h1]
      by_cases hc : c < 400
      · rw [if_pos hc]
        refine ⟨rfl, rfl, Or.inr ⟨rfl,
          discoveryLine (fqdn cfg.domain sub) (http_url cfg.domain sub) c,
          ?_, ?_⟩⟩ <;> simp [save_discovered_subdomain_eq]
      · rw [if_neg hc]
        cases h2 : net (https_url cfg.domain sub) with
        | status c2 =>
            simp only [h2]
            by_cases hc2 : c2 < 400
            · rw [if_pos hc2]
              refine ⟨rfl, rfl, Or.inr ⟨rfl,
                discoveryLine (fqdn cfg.domain sub) (https_url cfg.domain sub)
                  c2, ?_, ?_⟩⟩ <;> simp [save_discovered_subdomain_eq]
            · rw [if_neg hc2]
              simp
        | requestError =>
            simp only [h2]
            simp
  | requestError =>
      simp only [h1]
      cases h2 : net (https_url cfg.domain sub) with
      | status c2 =>
          simp only [h2]
          by_cases hc2 : c2 < 400
          · rw [if_pos hc2]
            refine ⟨rfl, rfl, Or.inr ⟨rfl,
              discoveryLine (fqdn cfg.domain sub) (https_url cfg.domain sub)
                c2, ?_, ?_⟩⟩ <;> simp [save_discovered_subdomain_eq]
          · rw [if_neg hc2]
            simp
      | requestError =>
          simp only [h2]
          simp

/-- Shared lemma: when the HTTP attempt raises or answers with a status of
at least 400 and likewise the HTTPS attempt, `check_subdomain` returns
`False` and leaves the result list and the output file unchanged. -/
theorem check_subdomain_both_fail (net : String → NetResult) (cfg : Config)
    (sub : String) (s : EnumState)
    (hhttp : ∀ c, net (http_url cfg.domain sub) = NetResult.status c → 400 ≤ c)
    (hhttps : ∀ c, net (https_url cfg.domain sub) = NetResult.status c →
      400 ≤ c) :
    (check_subdomain net cfg sub s).1 = false ∧
    (check_subdomain net cfg sub s).2.discoveredSubdomains =
      s.discoveredSubdomains ∧
    (check_subdomain net cfg sub s).2.outputFile = s.outputFile := by
  unfold check_subdomain probe_part try_https requests_get
  cases h1 : net (http_url cfg.domain sub) with
  | status c =>
      have hge := hhttp c h1
      simp only [h1]
      rw [if_neg (by omega : ¬ c < 400)]
      cases h2 : net (https_url cfg.domain sub) with
      | status c2 =>
          have hge2 := hhttps c2 h2
          simp only [h2]
          rw [if_neg (by omega : ¬ c2 < 400)]
          simp
      | requestError =>
          simp only [h2]
          simp
  | requestError =>
      simp only [h1]
      cases h2 : net (https_url cfg.domain sub) with
      | status c2 =>
          have hge2 := hhttps c2 h2
          simp only [h2]
          rw [if_neg (by omega : ¬ c2 < 400)]
          simp
      | requestError =>
          simp only [h2]
          simp

/-- Claim C4: every candidate contributes at most one entry to
`discovered_subdomains`; a candidate that succeeds on HTTP or HTTPS
contributes exactly one, and one whose HTTP and HTTPS attempts both raise
or both answer with a status of at least 400 contributes none: the probe
returns `False` and neither the result list nor the output file moves. -/
theorem check_subdomain_at_most_one_verdict (net : String → NetResult)
    (cfg : Config) (sub : String) (s : EnumState) :
    (check_subdomain net cfg sub s).2.discoveredSubdomains.length ≤
      s.discoveredSubdomains.length + 1 ∧
    (((check_subdomain net cfg sub s).1 = false ∧
      (check_subdomain net cfg sub s).2.discoveredSubdomains =
        s.discoveredSubdomains) ∨
     ((check_subdomain net cfg sub s).1 = true ∧
      ∃ line,
        (check_subdomain net cfg sub s).2.discoveredSubdomains =
          s.discoveredSubdomains ++ [line])) ∧
    ((∀ c, net (http_url cfg.domain sub) = NetResult.status c → 400 ≤ c) →
     (∀ c, net (https_url cfg.domain sub) = NetResult.status c → 400 ≤ c) →
      (check_subdomain net cfg sub s).1 = false ∧
      (check_subdomain net cfg sub s).2.discoveredSubdomains =
        s.discoveredSubdomains ∧
      (check_subdomain net cfg sub s).2.outputFile = s.outputFile) := by
  obtain ⟨-, -, hd⟩ := probe_part_effect net cfg sub (record_attempt s)
  rw [record_attempt_discoveredSubdomains] at hd
  refine ⟨?_, ?_, fun h1 h2 => check_subdomain_both_fail net cfg sub s h1 h2⟩
  · rcases hd with ⟨-, h, -⟩ | ⟨-, line, h, -⟩ <;>
      rw [show (check_subdomain net cfg sub s).2.discoveredSubdomains =
            (probe_part net cfg sub (record_attempt s)).2.discoveredSubdomains
          from rfl, h] <;> simp
  · rcases hd with ⟨hb, h, -⟩ | ⟨hb, line, h, -⟩
    · exact Or.inl ⟨hb, h⟩
    · exact Or.inr ⟨hb, line, h⟩

/-- A network oracle under which both attempts for `www.example.com`
answer 404. -/
def net4 : String → NetResult := fun _ => NetResult.status 404

/-- Witness for claim C4: both attempts answer 404, so no verdict is
recorded and the probe reports not live. -/
theorem check_subdomain_at_most_one_verdict_witness :
    (check_subdomain net4 cfg0 "www" s0).1 = false ∧
    (check_subdomain net4 cfg0 "www" s0).2.discoveredSubdomains = [] ∧
    (check_subdomain net4 cfg0 "www" s0).2.outputFile = [] := by
  have h := (check_subdomain_at_most_one_verdict net4 cfg0 "www" s0).2.2
    (by intro c hc; cases hc; omega) (by intro c hc; cases hc; omega)
  exact ⟨h.1, h.2.1, h.2.2⟩

/-- A network oracle under which the HTTP attempt for `www.example.com`
raises a `RequestException` while the HTTPS attempt answers 200. -/
def net5 : String → NetResult := fun url =>
  if url = "https://www.example.com" then NetResult.status 200
  else NetResult.requestError

/-- Counterexample to claim C5 as stated: a `RequestException` is raised
during the HTTP attempt for this candidate, yet `check_subdomain` returns
`True`, not `False` — the exception makes only that one attempt count as
not live, and the subsequent HTTPS success decides the verdict. -/
theorem check_subdomain_exception_can_still_return_true :
    net5 (http_url cfg0.domain "www") = NetResult.requestError ∧
    (check_subdomain net5 cfg0 "www" s0).1 = true := by
  exact ⟨by decide, by decide⟩

/-- Claim C5 amended: every `RequestException` is caught inside the `try`
block of the attempt that raised it and is never propagated — the
embedding of `check_subdomain` is a total function that always returns a
Bool verdict.  An exception converts that single attempt to not live: when
the HTTP attempt raises, the verdict is decided solely by the HTTPS
attempt, and when the HTTPS attempt (the last resort) also raises, the
call returns `False` with no verdict recorded. -/
theorem check_subdomain_catches_exceptions (net : String → NetResult)
    (cfg : Config) (sub : String) (s : EnumState)
    (hhttp : net (http_url cfg.domain sub) = NetResult.requestError) :
    ((check_subdomain net cfg sub s).1 = true ↔
      ∃ c, net (https_url cfg.domain sub) = NetResult.status c ∧ c < 400) ∧
    (net (https_url cfg.domain sub) = NetResult.requestError →
      (check_subdomain net cfg sub s).1 = false ∧
      (check_subdomain net cfg sub s).2.discoveredSubdomains =
        s.discoveredSubdomains ∧
      (check_subdomain net cfg sub s).2.outputFile = s.outputFile) := by
  unfold check_subdomain probe_part try_https requests_get
  simp only [hhttp]
  cases h2 : net (https_url cfg.domain sub) with
  | status c2 =>
      dsimp only
      by_cases hc2 : c2 < 400
      · rw [if_pos hc2]
        constructor
        · simp only [true_iff]
          exact ⟨c2, rfl, hc2⟩
        · intro hcontra
          cases hcontra
      · rw [if_neg hc2]
        constructor
        · refine ⟨fun hft => absurd hft (by simp), fun hex => ?_⟩
          obtain ⟨c3, hc3, hlt⟩ := hex
          cases hc3
          exact absurd hlt hc2
        · intro hcontra
          cases hcontra
  | requestError =>
      dsimp only
      constructor
      · refine ⟨fun hft => absurd hft (by simp), fun hex => ?_⟩
        obtain ⟨c3, hc3, -⟩ := hex
        cases hc3
      · intro _
        exact ⟨rfl, by simp, by simp⟩

/-- A network oracle that raises a `RequestException` for every URL. -/
def net5b : String → NetResult := fun _ => NetResult.requestError

/-- Witness for the amended claim C5: when both attempts raise, the call
returns `False` and records nothing. -/
theorem check_subdomain_catches_exceptions_witness :
    (check_subdomain net5b cfg0 "www" s0).1 = false ∧
    (check_subdomain net5b cfg0 "www" s0).2.discoveredSubdomains = [] := by
  have h := (check_subdomain_catches_exceptions net5b cfg0 "www" s0 rfl).2 rfl
  exact ⟨h.1, h.2.1⟩

/-- Counterexample to claim C7 as stated: `check_subdomain` is not
side-effect-free beyond the network calls — on this concrete input it
increments `checked_count` from 0 to 1 and appends to both
`discovered_subdomains` and the output log. -/
theorem check_subdomain_not_side_effect_free :
    s0.checkedCount = 0 ∧
    (check_subdomain net2 cfg0 "www" s0).2.checkedCount = 1 ∧
    (check_subdomain net2 cfg0 "www" s0).2.discoveredSubdomains ≠
      s0.discoveredSubdomains ∧
    (check_subdomain net2 cfg0 "www" s0).2.outputFile ≠ s0.outputFile := by
  refine ⟨rfl, by decide, by decide, by decide⟩

/-- Claim C7 amended: `check_subdomain` mutates the aggregate state in a
precisely bounded way — every call increments `checkedCount` by exactly
one (the progress-counter section inlined at its start, lines 50-55), and
beyond that either records nothing, or — on a live verdict — appends one
and the same line to `liveResults` and the output log via
`save_discovered_subdomain`; the network part on its own never touches the
counters. -/
theorem check_subdomain_effect (net : String → NetResult) (cfg : Config)
    (sub : String) (s : EnumState) :
    (check_subdomain net cfg sub s).2.checkedCount = s.checkedCount + 1 ∧
    (check_subdomain net cfg sub s).2.totalSubdomains = s.totalSubdomains ∧
    (((check_subdomain net cfg sub s).1 = false ∧
      (check_subdomain net cfg sub s).2.discoveredSubdomains =
        s.discoveredSubdomains ∧
      (check_subdomain net cfg sub s).2.outputFile = s.outputFile) ∨
     ((check_subdomain net cfg sub s).1 = true ∧
      ∃ line,
        (check_subdomain net cfg sub s).2.discoveredSubdomains =
          s.discoveredSubdomains ++ [line] ∧
        (check_subdomain net cfg sub s).2.outputFile =
          s.outputFile ++ [line])) := by
  obtain ⟨hc, ht, hd⟩ := probe_part_effect net cfg sub (record_attempt s)
  rw [record_attempt_checkedCount] at hc
  rw [record_attempt_totalSubdomains] at ht
  rw [record_attempt_discoveredSubdomains] at hd
  rw [record_attempt_outputFile] at hd
  exact ⟨hc, ht, hd⟩

/-! The worker pool: invariants of the `Step` transition system. -/

/-- A worker holding a popped candidate it has not yet counted. -/
def isInFlight : WPhase → Bool
  | WPhase.hasItem _ => true
  | _ => false

/-- Number of workers holding a popped, not yet counted candidate. -/
def inFlight (ws : List WPhase) : Nat :=
  ws.countP isInFlight

theorem countP_set_aux (p : α → Bool) :
    ∀ (ws : List α) (i : Nat) (a b : α), ws.get? i = some a →
      (ws.set i b).countP p + (if p a then 1 else 0) =
        ws.countP p + (if p b then 1 else 0) := by
  intro ws
  induction ws with
  | nil => intro i a b h; cases h
  | cons x xs ih =>
      intro i a b h
      cases i with
      | zero =>
          cases h
          simp only [List.set]
          rw [List.countP_cons, List.countP_cons]
          omega
      | succ j =>
          simp only [List.get?] at h
          simp only [List.set]
          rw [List.countP_cons, List.countP_cons]
          have := ih j a b h
          omega

theorem mem_set_self : ∀ (ws : List α) (i : Nat) (b : α), i < ws.length →
    b ∈ ws.set i b := by
  intro ws
  induction ws with
  | nil => intro i b h; cases h
  | cons x xs ih =>
      intro i b h
      cases i with
      | zero => simp [List.set]
      | succ j =>
          simp only [List.set]
          exact List.mem_cons_of_mem _ (ih j b (by simpa using h))

/-- The counting invariant: candidates already counted, candidates still
queued and candidates popped but not yet counted always add up to the
total. -/
def CountInv (N : Nat) (g : GState) : Prop :=
  g.st.checkedCount + g.queue.length + inFlight g.workers = N

/-- As long as the queue is non-empty some worker has not terminated. -/
def NonDoneInv (g : GState) : Prop :=
  g.queue ≠ [] → ∃ w ∈ g.workers, w ≠ WPhase.done

theorem step_preserves_inv (net : String → NetResult) (cfg : Config)
    (N : Nat) {g g' : GState} (h : Step net cfg g g')
    (hinv : CountInv N g ∧ NonDoneInv g) :
    CountInv N g' ∧ NonDoneInv g' := by
  obtain ⟨hcount, hnd⟩ := hinv
  have hlen : ∀ (ws : List WPhase) (i : Nat) (a : WPhase),
      ws.get? i = some a → i < ws.length := by
    intro ws i a ha
    exact List.get?_eq_some.mp ha |>.1
  cases h with
  | @pop i sub rest hw hq =>
      constructor
      · unfold CountInv at hcount ⊢
        dsimp only
        have hc := countP_set_aux isInFlight g.workers i WPhase.idle
          (WPhase.hasItem sub) hw
        simp [isInFlight] at hc
        unfold inFlight at hcount ⊢
        rw [hq] at hcount
        simp only [List.length_cons] at hcount
        omega
      · intro _
        exact ⟨WPhase.hasItem sub,
          mem_set_self g.workers i _ (hlen g.workers i _ hw), by simp⟩
  | @popEmpty i hw hq =>
      constructor
      · unfold CountInv at hcount ⊢
        dsimp only
        have hc := countP_set_aux isInFlight g.workers i WPhase.idle
          WPhase.done hw
        simp [isInFlight] at hc
        unfold inFlight at hcount ⊢
        rw [hq] at hcount
        simp only [List.length_nil] at hcount
        simp only [List.length_nil]
        omega
      · intro hne
        exact absurd rfl hne
  | @count i sub hw =>
      constructor
      · unfold CountInv at hcount ⊢
        dsimp only
        have hc := countP_set_aux isInFlight g.workers i (WPhase.hasItem sub)
          (WPhase.probing sub) hw
        simp [isInFlight] at hc
        unfold inFlight at hcount ⊢
        rw [record_attempt_checkedCount]
        omega
      · intro hne
        exact ⟨WPhase.probing sub,
          mem_set_self g.workers i _ (hlen g.workers i _ hw), by simp⟩
  | @probe i sub hw =>
      constructor
      · unfold CountInv at hcount ⊢
        dsimp only
        have hc := countP_set_aux isInFlight g.workers i (WPhase.probing sub)
          WPhase.idle hw
        simp [isInFlight] at hc
        unfold inFlight at hcount ⊢
        rw [(probe_part_effect net cfg sub g.st).1]
        omega
      · intro hne
        exact ⟨WPhase.idle,
          mem_set_self g.workers i _ (hlen g.workers i _ hw), by simp⟩

theorem steps_preserve_inv (net : String → NetResult) (cfg : Config)
    (N : Nat) {g g' : GState} (h : Steps net cfg g g')
    (hinv : CountInv N g ∧ NonDoneInv g) :
    CountInv N g' ∧ NonDoneInv g' := by
  induction h with
  | refl => exact hinv
  | tail _ hstep ih => exact step_preserves_inv net cfg N hstep ih

theorem enumerate_st_checkedCount (cfg : Config) (fs : FileOutcome)
    (prevOutput : List String) :
    (SubdomainEnumerator.enumerate cfg fs prevOutput).st.checkedCount = 0 := by
  unfold SubdomainEnumerator.enumerate
  dsimp only
  split <;> cases fs <;> rfl

theorem enumerate_ran_shape (cfg : Config) (fs : FileOutcome)
    (prevOutput : List String) :
    (SubdomainEnumerator.enumerate cfg fs prevOutput).ran = none ∨
    (SubdomainEnumerator.enumerate cfg fs prevOutput).ran =
      some ⟨loadedCandidates fs,
            (SubdomainEnumerator.enumerate cfg fs prevOutput).st,
            List.replicate (min cfg.maxThreads (loadedCandidates fs).length)
              WPhase.idle⟩ := by
  unfold SubdomainEnumerator.enumerate
  dsimp only
  rw [load_subdomains_fst]
  split
  · exact Or.inl rfl
  · exact Or.inr rfl

/-- Claim C1: for every candidate list and every configured worker count
of at least one, when `enumerate` hands the loaded candidates to the pool
and every worker has terminated — after any interleaving whatsoever of the
atomic worker actions — `checked_count` equals exactly the number of
candidates: each candidate is dequeued and counted exactly once, with no
duplication and no loss. -/
theorem run_counts_every_candidate (cfg : Config) (fs : FileOutcome)
    (prevOutput : List String) (net : String → NetResult) (g0 g : GState)
    (hW : 1 ≤ cfg.maxThreads)
    (hran : (SubdomainEnumerator.enumerate cfg fs prevOutput).ran = some g0)
    (hsteps : Steps net cfg g0 g)
    (hdone : AllDone g) :
    g.st.checkedCount = (loadedCandidates fs).length := by
  rcases enumerate_ran_shape cfg fs prevOutput with hnone | hsome
  · rw [hran] at hnone
    cases hnone
  · rw [hran] at hsome
    have hg0 := Option.some.inj hsome
    have hinit : CountInv (loadedCandidates fs).length g0 ∧ NonDoneInv g0 := by
      constructor
      · unfold CountInv
        rw [hg0]
        dsimp only
        rw [enumerate_st_checkedCount]
        have hzero : inFlight (List.replicate
            (min cfg.maxThreads (loadedCandidates fs).length) WPhase.idle)
              = 0 := by
          unfold inFlight
          rw [List.countP_eq_zero]
          intro a ha
          rw [List.eq_of_mem_replicate ha]
          simp [isInFlight]
        rw [hzero]
        omega
      · intro hne
        rw [hg0] at hne ⊢
        dsimp only at hne ⊢
        have hN : 1 ≤ (loadedCandidates fs).length :=
          List.length_pos.mpr hne
        refine ⟨WPhase.idle, ?_, by simp⟩
        rw [List.mem_replicate]
        exact ⟨by omega, rfl⟩
    have hfin := steps_preserve_inv net cfg (loadedCandidates fs).length
      hsteps hinit
    have hq0 : g.queue = [] := by
      by_contra hne
      obtain ⟨w, hwmem, hwne⟩ := hfin.2 hne
      exact hwne (hdone w hwmem)
    have hin : inFlight g.workers = 0 := by
      unfold inFlight
      rw [List.countP_eq_zero]
      intro a ha
      rw [hdone a ha]
      simp [isInFlight]
    have hc := hfin.1
    unfold CountInv at hc
    rw [hq0, hin] at hc
    simpa using hc

/-- Configuration for a one-candidate, one-worker run. -/
def cfgW : Config := ⟨"example.com", "subdomains.txt", "discovered_subdomains.txt", 1, 5⟩

/-- The state `enumerate` hands to the pool when the candidate file holds
the single line `www`. -/
def stW : EnumState :=
  (SubdomainEnumerator.enumerate cfgW (FileOutcome.content ["www"]) []).st

/-- The initial pool state of that run: one queued candidate, one idle
worker. -/
def gW0 : GState := ⟨["www"], stW, [WPhase.idle]⟩

/-- The terminal pool state of that run under the all-errors oracle. -/
def gW4 : GState :=
  ⟨[], (SubdomainEnumerator.probe_part net5b cfgW "www"
          (SubdomainEnumerator.record_attempt stW)).2, [WPhase.done]⟩

/-- Witness for claim C1: the concrete run over candidate list `["www"]`
with one worker reaches a terminal state with `checked_count = 1`. -/
theorem run_counts_every_candidate_witness : gW4.st.checkedCount = 1 := by
  have hran : (SubdomainEnumerator.enumerate cfgW
      (FileOutcome.content ["www"]) []).ran = some gW0 := by
    rfl
  have htr : Steps net5b cfgW gW0 gW4 := by
    unfold Steps
    refine Relation.ReflTransGen.head
      (@Step.pop net5b cfgW gW0 0 "www" [] rfl rfl) ?_
    refine Relation.ReflTransGen.head
      (@Step.count net5b cfgW _ 0 "www" rfl) ?_
    refine Relation.ReflTransGen.head
      (@Step.probe net5b cfgW _ 0 "www" rfl) ?_
    refine Relation.ReflTransGen.head
      (@Step.popEmpty net5b cfgW _ 0 rfl rfl) ?_
    exact Relation.ReflTransGen.refl
  have hdone : AllDone gW4 := by
    intro w hw
    exact List.eq_of_mem_singleton hw
  have h := run_counts_every_candidate cfgW (FileOutcome.content ["www"]) []
    net5b gW0 gW4 (by decide) hran htr hdone
  rw [show (loadedCandidates (FileOutcome.content ["www"])).length = 1 by
    decide] at h
  exact h

/-- Claim C9: `save_discovered_subdomain` appends the verdict to the
in-memory `discovered_subdomains` and exactly one line of the form
`<fqdn> - <url> (Status: <code>)` to the output log, both inside the same
critical section (one atomic step of the embedding); consequently, across
any interleaving of worker actions, the log lines and the in-memory
sequence always agree — a verdict never appears in one but not the
other. -/
theorem save_discovered_subdomain_sync (net : String → NetResult)
    (cfg : Config) (s : EnumState) (f u : String) (c : Nat) (g0 g : GState)
    (hsteps : Steps net cfg g0 g)
    (hagree : g0.st.outputFile = g0.st.discoveredSubdomains) :
    (SubdomainEnumerator.save_discovered_subdomain s f u c).discoveredSubdomains
      = s.discoveredSubdomains ++ [discoveryLine f u c] ∧
    (SubdomainEnumerator.save_discovered_subdomain s f u c).outputFile
      = s.outputFile ++ [discoveryLine f u c] ∧
    g.st.outputFile = g.st.discoveredSubdomains := by
  refine ⟨rfl, rfl, ?_⟩
  induction hsteps with
  | refl => exact hagree
  | tail hsteps hstep ih =>
      cases hstep with
      | @pop i sub rest hw hq => exact ih
      | @popEmpty i hw hq => exact ih
      | @count i sub hw =>
          dsimp only
          rw [record_attempt_outputFile, record_attempt_discoveredSubdomains]
          exact ih
      | @probe i sub hw =>
          dsimp only
          rcases (probe_part_effect net cfg sub _).2.2 with
            ⟨-, hd, ho⟩ | ⟨-, line, hd, ho⟩
          · rw [ho, hd]
            exact ih
          · rw [ho, hd, ih]

/-- Witness for claim C9 at a concrete verdict and the trivial
interleaving. -/
theorem save_discovered_subdomain_sync_witness :
    (SubdomainEnumerator.save_discovered_subdomain s0 "www.example.com"
      "http://www.example.com" 200).discoveredSubdomains =
      [discoveryLine "www.example.com" "http://www.example.com" 200] ∧
    (SubdomainEnumerator.save_discovered_subdomain s0 "www.example.com"
      "http://www.example.com" 200).outputFile =
      [discoveryLine "www.example.com" "http://www.example.com" 200] ∧
    (⟨[], s0, []⟩ : GState).st.outputFile =
      (⟨[], s0, []⟩ : GState).st.discoveredSubdomains := by
  have h := save_discovered_subdomain_sync net5b cfg0 s0 "www.example.com"
    "http://www.example.com" 200 ⟨[], s0, []⟩ ⟨[], s0, []⟩
    Relation.ReflTransGen.refl rfl
  exact ⟨h.1, h.2.1, h.2.2⟩
